import Mathlib

/-!
Verification of the holz_logistik_server synchronization server.

This file gives a shallow embedding of the server's storage layer
(`core_local_storage.rs`), the contract entity store
(`contract/contract_local_storage.rs`), the authentication and pool
registry logic (`main.rs`, `handlers/database_handler.rs`,
`services/auth_service.rs`) and the ingest/broadcast/sync paths of
`main.rs`, and proves or refutes the frozen specification claims
about them.

Column values are carried as a tagged union mirroring the SQLite
value classes used by the code (NULL / INTEGER / REAL / TEXT; blobs
travel base64-encoded as TEXT on the paths modelled here).  A database
row is an association list from column name to value; a table is a
list of rows.
-/

namespace HolzLogistik

/-- SQLite / JSON scalar values as the Rust code moves them around. -/
inductive Val where
  | null
  | int (n : Int)
  | real (q : Rat)
  | str (s : String)
deriving DecidableEq, Repr

/-- Mirror of `serde_json::Value::as_i64` (floats give `none`). -/
def Val.asInt : Val → Option Int
  | .int n => some n
  | _ => none

/-- Mirror of `serde_json::Value::as_str`. -/
def Val.asStr : Val → Option String
  | .str s => some s
  | _ => none

/-- Mirror of reading a REAL column (`row.get::<f64>`): SQLite
coerces INTEGER values to REAL, other classes fail. -/
def Val.asReal : Val → Option Rat
  | .real q => some q
  | .int n => some (n : Rat)
  | _ => none

/-- A JSON object / database row: column name to value. -/
abbrev Record := List (String × Val)

/-- `map.get(k)` on a `serde_json` object / reading a named column
(first matching column wins, as for a map with unique keys). -/
def getField : Record → String → Option Val
  | [], _ => none
  | (k', v) :: r, k => if k' = k then some v else getField r k

/-- `map.insert(k, v)` on a JSON object, and the effect of a SQL
`SET k = v` on a row: replace the value at an existing column,
append the column otherwise. -/
def setCol : Record → String → Val → Record
  | [], k, v => [(k, v)]
  | (k', w) :: r, k, v =>
    if k' = k then (k, v) :: r else (k', w) :: setCol r k v

/-! ## Row store: `core_local_storage.rs` -/

/-- A database table: the list of its rows. -/
abbrev Table := List Record

/-- `WHERE id = ?` with a TEXT parameter: a row matches when its `id`
column holds exactly that TEXT value (SQLite equality across storage
classes is false). -/
def rowIdEq (i : String) (r : Record) : Bool :=
  decide (getField r "id" = some (.str i))

/-- `CoreLocalStorage::get_by_id`: `SELECT * FROM t WHERE id = ?`,
tombstones included. -/
def get_by_id (tbl : Table) (i : String) : List Record :=
  tbl.filter (rowIdEq i)

/-- The `deleted.as_i64() == Some(0)` test of `insert_or_update`, and
the `deleted = 0` SQL predicate for an INTEGER `deleted` column. -/
def isLiveVal (v : Option Val) : Bool :=
  decide (v.bind Val.asInt = some (0 : Int))

/-- `CoreLocalStorage::get_existing_by_id`:
`SELECT * FROM t WHERE deleted = 0 AND id = ?`. -/
def get_existing_by_id (tbl : Table) (i : String) : List Record :=
  tbl.filter (fun r => isLiveVal (getField r "deleted") && rowIdEq i r)

/-- `CoreLocalStorage::insert`: `INSERT OR REPLACE` with exactly the
provided columns.  It is only reached when no row with the record's
id exists, so it appends a fresh row; columns that were not provided
are absent and read back as NULL. -/
def insert (tbl : Table) (data : Record) : Table :=
  tbl ++ [data]

/-- The `lastEdit` extraction of `CoreLocalStorage::update`: a missing
field or a non-number is an error (`none`); a float falls back to 0
(`as_i64().unwrap_or(0)`). -/
def newLastEdit (data : Record) : Option Int :=
  match getField data "lastEdit" with
  | some (.int n) => some n
  | some (.real _) => some 0
  | _ => none

/-- The `UPDATE t SET c1 = ?, ... WHERE id = ?` row transformation of
`CoreLocalStorage::update`: every provided column except `id` is
written onto the row. -/
def applyUpdates (row : Record) (data : Record) : Record :=
  data.foldl (fun r kv => if kv.1 = "id" then r else setCol r kv.1 kv.2) row

/-- `CoreLocalStorage::update`.  Returns `none` on the error paths
(missing `id`, missing or non-numeric `lastEdit`, non-INTEGER stored
`lastEdit`), otherwise the new table and the affected row count.
All modelled tables carry a `lastEdit` column, so the
`PRAGMA table_info` probe (`has_last_edit`) is `true` here. -/
def update (tbl : Table) (data : Record) : Option (Table × Nat) :=
  match getField data "id" with
  | none => none
  | some idv =>
    let idStr := idv.asStr.getD ""
    match newLastEdit data with
    | none => none
    | some n =>
      match (tbl.filter (rowIdEq idStr)).head? with
      | none => some (tbl, 0)
      | some row =>
        match (getField row "lastEdit").bind Val.asInt with
        | none => none
        | some m =>
          if n ≤ m then some (tbl, 0)
          else
            some (tbl.map (fun r => if rowIdEq idStr r then applyUpdates r data else r),
                  (tbl.filter (rowIdEq idStr)).length)

/-- `CoreLocalStorage::insert_or_update`: look the row up by id;
no row → insert (`true`); live row → timestamp-guarded update, but
reporting `true` regardless of whether the update wrote anything;
any other row (tombstone, or no readable `deleted`) → `false`. -/
def insert_or_update (tbl : Table) (data : Record) : Option (Table × Bool) :=
  match getField data "id" with
  | none => none
  | some idv =>
    let idStr := idv.asStr.getD ""
    match (get_by_id tbl idStr).head? with
    | some item =>
      if isLiveVal (getField item "deleted") then
        (update tbl data).map (fun p => (p.1, true))
      else some (tbl, false)
    | none => some (insert tbl data, true)

/-- `CoreLocalStorage::mark_as_deleted`:
`UPDATE t SET deleted = 1, lastEdit = ?, arrivalAtServer = ? WHERE id = ?`,
returning the affected row count. -/
def mark_as_deleted (tbl : Table) (i : String) (now : Int) : Table × Nat :=
  (tbl.map (fun r =>
      if rowIdEq i r then
        setCol (setCol (setCol r "deleted" (.int 1)) "lastEdit" (.int now))
          "arrivalAtServer" (.int now)
      else r),
   (tbl.filter (rowIdEq i)).length)

/-! ## Contract store: `contract/contract_local_storage.rs` -/

/-- The `arrivalAtServer` stamping of `save_contract`:
`map.insert("arrivalAtServer", now_ms)`. -/
def stampArrival (data : Record) (now : Int) : Record :=
  setCol data "arrivalAtServer" (.int now)

/-- `ContractLocalStorage::save_contract`: stamp `arrivalAtServer`
with the server time, then `insert_or_update` on the contracts
table. -/
def save_contract (tbl : Table) (data : Record) (now : Int) : Option (Table × Bool) :=
  insert_or_update tbl (stampArrival data now)

/-- Sort key of `ORDER BY lastEdit ASC` for rows whose `lastEdit` is
an INTEGER (the mapper rejects other rows anyway). -/
def lastEditKey (r : Record) : Int :=
  ((getField r "lastEdit").bind Val.asInt).getD 0

/-- Insertion into a list sorted by `lastEditKey`. -/
def insertSorted (r : Record) : List Record → List Record
  | [] => [r]
  | x :: xs =>
    if lastEditKey r ≤ lastEditKey x then r :: x :: xs
    else x :: insertSorted r xs

/-- `ORDER BY lastEdit ASC`. -/
def orderByLastEdit : List Record → List Record
  | [] => []
  | x :: xs => insertSorted x (orderByLastEdit xs)

/-- The row mapper of `get_contract_updates_by_date`: positional typed
reads of the ten projected columns, rebuilt as a JSON object.  A row
that fails a typed read is dropped by the surrounding loop
(`Err(e) => eprintln!`).  Note that neither `arrivalAtServer` nor
`deleted` is part of the output object. -/
def contract_row_json (r : Record) : Option Record := do
  let idv ← (getField r "id").bind Val.asStr
  let done ← (getField r "done").bind Val.asInt
  let le ← (getField r "lastEdit").bind Val.asInt
  let title ← (getField r "title").bind Val.asStr
  let addInfo ← (getField r "additionalInfo").bind Val.asStr
  let sd ← (getField r "startDate").bind Val.asInt
  let ed ← (getField r "endDate").bind Val.asInt
  let aq ← (getField r "availableQuantity").bind Val.asReal
  let bq ← (getField r "bookedQuantity").bind Val.asReal
  let sq ← (getField r "shippedQuantity").bind Val.asReal
  pure [("id", .str idv), ("done", .int done), ("lastEdit", .int le),
        ("title", .str title), ("additionalInfo", .str addInfo),
        ("startDate", .int sd), ("endDate", .int ed),
        ("availableQuantity", .real aq), ("bookedQuantity", .real bq),
        ("shippedQuantity", .real sq)]

/-- `WHERE deleted = 0 AND arrivalAtServer > ?`. -/
def contract_delta_pred (w : Int) (r : Record) : Bool :=
  isLiveVal (getField r "deleted") &&
  (match (getField r "arrivalAtServer").bind Val.asInt with
   | some a => decide (w < a)
   | none => false)

/-- `ContractLocalStorage::get_contract_updates_by_date`:
`SELECT * FROM contracts WHERE deleted = 0 AND arrivalAtServer > ?
ORDER BY lastEdit ASC`, then the ten-column row mapper. -/
def get_contract_updates_by_date (tbl : Table) (w : Int) : List Record :=
  (orderByLastEdit (tbl.filter (contract_delta_pred w))).filterMap contract_row_json

/-! ## Connection-level model: `main.rs` -/

/-- A wire frame `{type, data, timestamp}` after JSON parsing. -/
structure Frame where
  type : String
  data : Record
  timestamp : Int
deriving DecidableEq, Repr

/-- A connected client as kept in the `Clients` map of `main.rs`
(the outbound `sender` channel is represented by the delivery lists
the broadcast functions return). -/
structure Client where
  id : String
  db_name : String
  user_id : String
  sync_completed : Bool
deriving DecidableEq, Repr

/-- `data.get("deleted").and_then(as_i64).unwrap_or(0) == 1`. -/
def isDeletedData (data : Record) : Bool :=
  decide (((getField data "deleted").bind Val.asInt).getD 0 = 1)

/-- The acknowledgement frame built in `broadcast_message` for a
non-delete update: `{type: msg_type, data: {id, synced: 1},
timestamp: now}`. -/
def ackFrame (f : Frame) (now : Int) : Frame :=
  { type := f.type
    data := [("id", (getField f.data "id").getD (.str "unknown")), ("synced", .int 1)]
    timestamp := now }

/-- `broadcast_message` of `main.rs`: the deliveries produced for a
frame ingested from `sender`.  Every client whose `db_name` is
non-empty receives something: clients other than the sender the
verbatim frame, the sender a delete echo (for `deleted = 1` data) or
the synthetic ack.  The loop performs no tenant comparison and no
`sync_completed` check. -/
def broadcast_message (sender : String) (f : Frame) (clients : List Client)
    (now : Int) : List (String × Frame) :=
  clients.foldr (fun c acc =>
    if c.db_name ≠ "" then
      (if c.id ≠ sender then (c.id, f)
       else if isDeletedData f.data then (c.id, f)
       else (c.id, ackFrame f now)) :: acc
    else acc) []

/-- `handle_contract_update` of `main.rs`: non-delete data goes to
`save_contract`; delete data goes to `mark_as_deleted`, whose result
is mapped to `true` regardless of the affected row count
(`Ok(_) => true`).  Storage errors are logged and report `false`. -/
def handle_contract_update (data : Record) (tbl : Table) (now : Int) :
    Table × Bool :=
  if ¬ isDeletedData data then
    match save_contract tbl data now with
    | some (t, success) => (t, success)
    | none => (tbl, false)
  else
    match (getField data "id").bind Val.asStr with
    | some i => ((mark_as_deleted tbl i now).1, true)
    | none => (tbl, false)

/-- Modelled from the spec: the modern `UserLocalStorage::save_user`
called by `main.rs` with a JSON record is not under `src/` (the
checked-in user store is a legacy ISO-8601 variant).  Per §4.2 an
entity store's `save` stamps `arrivalAtServer` and delegates to
`insert_or_update` on its fixed table, exactly as `save_contract`
does. -/
def save_user (tbl : Table) (data : Record) (now : Int) : Option (Table × Bool) :=
  insert_or_update tbl (stampArrival data now)

/-- `handle_user_update` of `main.rs` (identically
`DatabaseHandler::handle_user_update`): for non-delete data, a
present-but-empty `name` string reports `false` before any save;
otherwise the record is saved; delete data goes to
`mark_as_deleted` with `Ok(_) => true`. -/
def handle_user_update (data : Record) (tbl : Table) (now : Int) :
    Table × Bool :=
  if ¬ isDeletedData data then
    match (getField data "name").bind Val.asStr with
    | some name =>
      if name = "" then (tbl, false)
      else
        match save_user tbl data now with
        | some (t, success) => (t, success)
        | none => (tbl, false)
    | none =>
      match save_user tbl data now with
      | some (t, success) => (t, success)
      | none => (tbl, false)
  else
    match (getField data "id").bind Val.asStr with
    | some i => ((mark_as_deleted tbl i now).1, true)
    | none => (tbl, false)

/-- The `<kind>_update` arms of `handle_client_message`: run the
kind's handler against the sender's tenant table, then broadcast the
verbatim frame iff the handler reported an update.  The contract and
user kinds are the ones the claims exercise; the other five arms are
structurally identical. -/
def handle_client_message (msg_type : String) (f : Frame) (sender : String)
    (clients : List Client) (tbl : Table) (now : Int) :
    Table × List (String × Frame) :=
  match msg_type with
  | "contract_update" =>
    let res := handle_contract_update f.data tbl now
    (res.1, if res.2 then broadcast_message sender f clients now else [])
  | "user_update" =>
    let res := handle_user_update f.data tbl now
    (res.1, if res.2 then broadcast_message sender f clients now else [])
  | _ => (tbl, [])

/-! ## Authentication: `main.rs` `handle_authentication_request`,
`services/auth_service.rs` -/

/-- `splitn(2, '-')` on the character list: split at the first dash;
`none` when no dash occurs (the `parts.len() != 2` rejection). -/
def splitFirstDash : List Char → Option (List Char × List Char)
  | [] => none
  | c :: rest =>
    if c = '-' then some ([], rest)
    else (splitFirstDash rest).map (fun p => (c :: p.1, p.2))

/-- The credential split of `handle_authentication_request`:
`api_key.splitn(2, '-')` with the two parts as tenant and user id. -/
def split_api_key (s : String) : Option (String × String) :=
  (splitFirstDash s.toList).map (fun p => (String.mk p.1, String.mk p.2))

/-- Outcome of an authentication attempt. -/
inductive AuthResult where
  | invalidFormat
  | invalidTenant
  | userNotFound
  | success (tenant userId : String)
deriving DecidableEq, Repr

/-- `handle_authentication_request` of `main.rs` (the
`AuthService::authenticate` flow is identical): split the key at the
first dash; reject with "Invalid tenant" when the tenant's database
file is absent; otherwise look the user up.  `tenantDb` maps a tenant
name to its users table, `none` when the database file is absent.
The user lookup itself is not under `src/` (the modern user store is
missing); modelled from the spec: §4.5 step 4 is
`get_live_by_id(userId)`, i.e. `get_existing_by_id` on the users
table. -/
def handle_authentication_request (apiKey : String)
    (tenantDb : String → Option Table) : AuthResult :=
  match split_api_key apiKey with
  | none => .invalidFormat
  | some (tenant, userId) =>
    match tenantDb tenant with
    | none => .invalidTenant
    | some users =>
      match (get_existing_by_id users userId).head? with
      | none => .userNotFound
      | some _ => .success tenant userId

/-! ## Tenant registry: `main.rs` `get_db_pool`,
`handlers/database_handler.rs` `get_or_create_pool` -/

/-- The registry state: which tenant database files exist on disk and
which tenants have a cached connection pool. -/
structure PoolState where
  files : List String
  pools : List String
deriving DecidableEq, Repr

/-- `get_db_pool` of `main.rs` (`DatabaseHandler::get_or_create_pool`
behaves identically): a cache hit returns the cached pool; otherwise,
when the database file is absent it is created on the spot
(`initialize_database`), then a pool is built and cached.  The `Bool`
is `true` when a pool is returned; the function has no rejection
branch for an absent file — only I/O failures error, which are not
modelled. -/
def get_db_pool (tenant : String) (st : PoolState) : PoolState × Bool :=
  if tenant ∈ st.pools then (st, true)
  else
    let files' := if tenant ∈ st.files then st.files else tenant :: st.files
    ({ files := files', pools := tenant :: st.pools }, true)

/-! ## Sync replay: `main.rs` `send_<kind>_data`,
`handle_sync_request`, and the `sync_request` arm of
`handle_authenticated_client`.  Frame timestamps are server wall
clock stamps irrelevant to every claim; they are fixed at 0 in the
replay model. -/

/-- The per-kind marker frame `{type: kind, data: {newSyncDate: d}}`. -/
def markerFrame (kind : String) (d : Int) : Frame :=
  ⟨kind, [("newSyncDate", .int d)], 0⟩

/-- A replayed record frame `{type: kind, data: record}`. -/
def recordFrame (kind : String) (r : Record) : Frame :=
  ⟨kind, r, 0⟩

/-- The per-record cursor advance of `send_<kind>_data`: after the
frame is sent, `if let Some(newest_date) = rec["arrivalAtServer"]
.as_i64() { if date <= newest_date { date = newest_date + 1 } }`.
A record without an integer `arrivalAtServer` leaves the cursor
unchanged. -/
def advance_date (d : Int) (r : Record) : Int :=
  match (getField r "arrivalAtServer").bind Val.asInt with
  | some a => if d ≤ a then a + 1 else d
  | none => d

/-- The `while should_continue` replay loop of `send_<kind>_data`,
with explicit fuel counting loop iterations.  The real loop has no
other exit, so an input on which the result is `none` for every fuel
is an input on which the loop never terminates.  On termination it
returns the emitted frames — each page's records in order, then the
final marker frame — and the final cursor. -/
def send_data_loop (kind : String) (fetch : Int → List Record) :
    Nat → Int → Option (List Frame × Int)
  | 0, _ => none
  | fuel + 1, d =>
    let page := fetch d
    if page = [] then some ([markerFrame kind d], d)
    else
      match send_data_loop kind fetch fuel (page.foldl advance_date d) with
      | none => none
      | some (frames, dEnd) => some (page.map (recordFrame kind) ++ frames, dEnd)

/-- Modelled from the spec: the modern per-kind stores for user,
sawmill, location, shipment, note and photo as called by
`handle_sync_request` (returning JSON rows that include
`arrivalAtServer`) are not under `src/`.  §4.1/§4.6: the delta is the
records with `arrivalAtServer > watermark`, sorted by `lastEdit`
ascending, returned whole. -/
def spec_deltas (tbl : Table) (w : Int) : List Record :=
  orderByLastEdit (tbl.filter (fun r =>
    match (getField r "arrivalAtServer").bind Val.asInt with
    | some a => decide (w < a)
    | none => false))

/-- The per-tenant database: one table per entity kind. -/
structure TenantDb where
  users : Table
  sawmills : Table
  contracts : Table
  locations : Table
  shipments : Table
  notes : Table
  photos : Table

/-- The seven watermarks of a `sync_request`, with missing keys
already defaulted to 0 as `handle_sync_request` does. -/
structure SyncWatermarks where
  user : Int
  sawmill : Int
  contract : Int
  location : Int
  shipment : Int
  note : Int
  photo : Int

/-- `handle_sync_request` of `main.rs`: the seven kinds are replayed
in program order user, sawmill, contract, location, shipment, note,
photo, concatenating the emitted frames.  `none` when one of the
replay loops never terminates.  The contract kind uses the checked-in
`get_contract_updates_by_date`; the other six use the spec-modelled
delta. -/
def handle_sync_request (db : TenantDb) (w : SyncWatermarks) (fuel : Nat) :
    Option (List Frame) := do
  let u ← send_data_loop "user_update" (spec_deltas db.users) fuel w.user
  let s ← send_data_loop "sawmill_update" (spec_deltas db.sawmills) fuel w.sawmill
  let c ← send_data_loop "contract_update"
    (get_contract_updates_by_date db.contracts) fuel w.contract
  let l ← send_data_loop "location_update" (spec_deltas db.locations) fuel w.location
  let sh ← send_data_loop "shipment_update" (spec_deltas db.shipments) fuel w.shipment
  let n ← send_data_loop "note_update" (spec_deltas db.notes) fuel w.note
  let p ← send_data_loop "photo_update" (spec_deltas db.photos) fuel w.photo
  pure (u.1 ++ s.1 ++ c.1 ++ l.1 ++ sh.1 ++ n.1 ++ p.1)

/-- The `sync_request` arm of `handle_authenticated_client`: when the
replay returns, the client's `sync_completed` flag is set (`Bool` in
the result) and a single `sync_from_server_complete` frame is emitted
after every replay frame. -/
def sync_request_response (db : TenantDb) (w : SyncWatermarks) (fuel : Nat) :
    Option (List Frame × Bool) :=
  match handle_sync_request db w fuel with
  | none => none
  | some frames => some (frames ++ [⟨"sync_from_server_complete", [], 0⟩], true)

/-! ## Concrete fixtures used by the claim instances -/

/-- A fresh contract update as a client would send it. -/
def demoContractData : Record :=
  [("id", .str "c9"), ("lastEdit", .int 5), ("deleted", .int 0), ("title", .str "t")]

/-- The fresh contract update as a wire frame. -/
def demoContractFrame : Frame := ⟨"contract_update", demoContractData, 5⟩

/-- A client authenticated for tenant `acme`. -/
def clientAcme : Client := ⟨"A", "acme", "u1", true⟩

/-- A client authenticated for the different tenant `globex`. -/
def clientGlobex : Client := ⟨"B", "globex", "u2", true⟩

/-- A stored live contract row (`lastEdit = 7`). -/
def staleStored : Record :=
  [("id", .str "c1"), ("lastEdit", .int 7), ("title", .str "new"),
   ("deleted", .int 0), ("arrivalAtServer", .int 100)]

/-- An incoming record for the same id with the older `lastEdit = 5`. -/
def staleIncoming : Record :=
  [("id", .str "c1"), ("lastEdit", .int 5), ("title", .str "old"), ("deleted", .int 0)]

/-- The stale record as a wire frame. -/
def staleFrame : Frame := ⟨"contract_update", staleIncoming, 5⟩

/-- A delete frame whose id matches no stored row. -/
def orphanDelete : Record := [("id", .str "c1"), ("deleted", .int 1)]

/-- The unmatched delete as a wire frame. -/
def orphanDeleteFrame : Frame := ⟨"contract_update", orphanDelete, 7⟩

/-- A soft-deleted contract row whose `arrivalAtServer` was refreshed
to 5 at deletion time. -/
def tombstoneRow : Record :=
  [("id", .str "c1"), ("done", .int 0), ("lastEdit", .int 5), ("title", .str "x"),
   ("additionalInfo", .str ""), ("startDate", .int 0), ("endDate", .int 0),
   ("availableQuantity", .real 100), ("bookedQuantity", .real 0),
   ("shippedQuantity", .real 0), ("arrivalAtServer", .int 5), ("deleted", .int 1)]

/-- A live stored contract row with `arrivalAtServer = 10`, pending
for any client whose contract watermark is below 10. -/
def pendingContract : Record :=
  [("id", .str "c1"), ("done", .int 0), ("lastEdit", .int 10), ("title", .str "x"),
   ("additionalInfo", .str ""), ("startDate", .int 0), ("endDate", .int 0),
   ("availableQuantity", .real 100), ("bookedQuantity", .real 0),
   ("shippedQuantity", .real 0), ("arrivalAtServer", .int 10), ("deleted", .int 0)]

/-- A tenant database holding exactly the one pending contract. -/
def syncDb : TenantDb := ⟨[], [], [pendingContract], [], [], [], []⟩

/-- A cold sync request: all seven watermarks at 0. -/
def zeroWatermarks : SyncWatermarks := ⟨0, 0, 0, 0, 0, 0, 0⟩

/-- A `user_update` payload with an empty `name` string. -/
def emptyNameUser : Record :=
  [("id", .str "u1"), ("name", .str ""), ("lastEdit", .int 5)]

/-- A small stored users/contracts row used by the witnesses. -/
def liveRowA : Record :=
  [("id", .str "a"), ("lastEdit", .int 1), ("deleted", .int 0)]

/-- An incoming record for id `a` with a newer `lastEdit`. -/
def newerRecordA : Record :=
  [("id", .str "a"), ("lastEdit", .int 99), ("deleted", .int 0), ("name", .str "x")]

/-- The tombstoning applied by `mark_as_deleted` to a matched row. -/
def tombstone (now : Int) (r : Record) : Record :=
  setCol (setCol (setCol r "deleted" (.int 1)) "lastEdit" (.int now))
    "arrivalAtServer" (.int now)

/-- What the ten-column row mapper makes of `pendingContract`: note
the absence of `arrivalAtServer`. -/
def pendingProjected : Record :=
  [("id", .str "c1"), ("done", .int 0), ("lastEdit", .int 10), ("title", .str "x"),
   ("additionalInfo", .str ""), ("startDate", .int 0), ("endDate", .int 0),
   ("availableQuantity", .real 100), ("bookedQuantity", .real 0),
   ("shippedQuantity", .real 0)]

/-! ## Theorems -/

theorem setCol_get_self (r : Record) (k : String) (v : Val) :
    getField (setCol r k v) k = some v := by
  induction r with
  | nil => simp [setCol, getField]
  | cons kv rest ih =>
    obtain ⟨k', w⟩ := kv
    by_cases h : k' = k
    · simp [setCol, h, getField]
    · simp [setCol, h, getField, ih]

theorem setCol_get_ne (r : Record) (k k' : String) (v : Val) (hne : k' ≠ k) :
    getField (setCol r k v) k' = getField r k' := by
  have hkk' : ¬(k = k') := fun hc => hne hc.symm
  induction r with
  | nil => simp [setCol, getField, hkk']
  | cons kv rest ih =>
    obtain ⟨k0, w⟩ := kv
    by_cases h : k0 = k
    · subst h
      simp [setCol, getField, hkk']
    · by_cases h2 : k0 = k'
      · simp [setCol, h, getField, h2, hne]
      · simp [setCol, h, getField, h2, ih]

/-- C1: the spec claims no frame produced by ingesting one client's
update mutation is ever delivered to a client authenticated for a
different tenant.  The code violates this: `broadcast_message` checks
only that the recipient's `db_name` is non-empty, so ingesting a
contract update from the tenant-`acme` client `A` delivers the
verbatim frame to the tenant-`globex` client `B`. -/
theorem c1_cross_tenant_delivery :
    clientAcme.db_name ≠ clientGlobex.db_name ∧
    ("B", demoContractFrame) ∈
      (handle_client_message "contract_update" demoContractFrame "A"
        [clientAcme, clientGlobex] [] 10).2 := by
  decide

/-- C2 counterexample: the spec claims that an incoming record with
`lastEdit ≤` the stored live row's `lastEdit` leaves the store
unchanged, reports that nothing changed, and triggers no broadcast or
acknowledgement.  At this concrete input the stored row is indeed
unchanged, but the handler reports `true` and the broadcast produces
deliveries. -/
theorem c2_stale_write_still_broadcasts :
    handle_contract_update staleIncoming [staleStored] 200 = ([staleStored], true) ∧
    (handle_client_message "contract_update" staleFrame "A"
      [clientAcme, clientGlobex] [staleStored] 200).2 ≠ [] := by
  decide

/-- C7 counterexample: the spec claims a `deleted = 1` frame whose id
matches no row modifies zero rows (true) and triggers no fan-out
(false): the handler maps `Ok(_)` to `true` regardless of the
affected row count, so the frame is fanned out anyway. -/
theorem c7_unknown_id_delete_still_fans_out :
    (mark_as_deleted ([] : Table) "c1" 50).2 = 0 ∧
    handle_contract_update orphanDelete [] 50 = ([], true) ∧
    (handle_client_message "contract_update" orphanDeleteFrame "A"
      [clientAcme, clientGlobex] [] 50).2 ≠ [] := by
  decide

/-- C8 counterexample: the spec claims a credential with an empty
part, such as `-u1`, fails fast with the invalid-credential error
before any tenant-existence check.  In the code `splitn(2, '-')` on
`-u1` yields the two parts `""` and `"u1"`, the format check passes,
and the flow reaches the tenant-existence check (rejecting with
"Invalid tenant" here, since no tenant named `""` exists). -/
theorem c8_empty_tenant_reaches_tenant_check :
    handle_authentication_request "-u1" (fun _ => none) = .invalidTenant ∧
    handle_authentication_request "-u1" (fun _ => none) ≠ .invalidFormat := by
  decide

/-- C9 counterexample: the spec claims the registry's first pool
request for a tenant with an absent database file rejects, without
creating the file and without caching a pool.  The code instead
creates the file (`initialize_database`), builds a pool, caches it,
and returns it. -/
theorem c9_pool_created_for_absent_tenant :
    get_db_pool "acme" ⟨[], []⟩ = (⟨["acme"], ["acme"]⟩, true) := by
  decide

/-- C5 counterexample: the spec claims the contract delta returns
every stored row with `arrivalAtServer > w`, including soft-deleted
rows.  The query's `WHERE deleted = 0` excludes this tombstone, whose
`arrivalAtServer = 5 > 0` and whose row projects without error. -/
theorem c5_tombstone_excluded_from_delta :
    get_contract_updates_by_date [tombstoneRow] 0 = [] ∧
    (getField tombstoneRow "arrivalAtServer").bind Val.asInt = some 5 ∧
    (contract_row_json tombstoneRow).isSome = true := by
  decide

theorem filter_no_match_map_id (tbl : Table) (p : Record → Bool)
    (g : Record → Record) (h : tbl.filter p = []) :
    tbl.map (fun r => if p r then g r else r) = tbl := by
  induction tbl with
  | nil => rfl
  | cons r rest ih =>
    rw [List.filter_cons] at h
    by_cases hr : p r = true
    · simp [hr] at h
    · simp only [List.map_cons, hr, if_false, Bool.false_eq_true]
      rw [ih (by simpa [hr] using h)]

/-- C10: a `user_update` frame whose data is not a delete and carries
a `name` field equal to the empty string reports no update without
reaching the user store's save: the table is returned unchanged with
`false`, and the message handler produces no deliveries. -/
theorem c10_empty_user_name_dropped (data : Record) (tbl : Table) (now : Int)
    (hnotdel : isDeletedData data = false)
    (hname : getField data "name" = some (.str "")) :
    handle_user_update data tbl now = (tbl, false) ∧
    ∀ (f : Frame) (sender : String) (clients : List Client),
      f.data = data →
      handle_client_message "user_update" f sender clients tbl now = (tbl, []) := by
  have h1 : handle_user_update data tbl now = (tbl, false) := by
    unfold handle_user_update
    rw [if_pos (by simp [hnotdel])]
    rw [hname]
    simp [Val.asStr]
  refine ⟨h1, ?_⟩
  intro f sender clients hf
  have h2 : handle_client_message "user_update" f sender clients tbl now
      = ((handle_user_update f.data tbl now).1,
         if (handle_user_update f.data tbl now).2 then
           broadcast_message sender f clients now
         else []) := rfl
  rw [h2, hf, h1]
  simp

/-- C10 witness: the theorem applied to a concrete empty-name record
on an empty users table. -/
theorem c10_empty_user_name_dropped_witness :
    handle_user_update emptyNameUser [] 3 = ([], false) :=
  (c10_empty_user_name_dropped emptyNameUser [] 3 (by decide) (by decide)).1

/-- C9 amended: on the first pool request for a tenant whose database
file is absent, the registry does not reject: it creates the database
file, builds a pool, caches it and returns it.  (The absent-tenant
authentication rejection instead comes from the `database_exists`
check performed before any pool request.) -/
theorem c9_amended_pool_creation (tenant : String) (st : PoolState)
    (hp : tenant ∉ st.pools) (hf : tenant ∉ st.files) :
    get_db_pool tenant st
      = ({ files := tenant :: st.files, pools := tenant :: st.pools }, true) := by
  simp [get_db_pool, hp, hf]

/-- C9 witness: the theorem applied to a registry that knows one
other tenant. -/
theorem c9_amended_pool_creation_witness :
    get_db_pool "acme" ⟨["other"], ["other"]⟩
      = (⟨["acme", "other"], ["acme", "other"]⟩, true) :=
  c9_amended_pool_creation "acme" ⟨["other"], ["other"]⟩ (by decide) (by decide)

theorem splitFirstDash_none_iff (cs : List Char) :
    splitFirstDash cs = none ↔ '-' ∉ cs := by
  induction cs with
  | nil => simp [splitFirstDash]
  | cons c rest ih =>
    by_cases h : c = '-'
    · subst h
      simp [splitFirstDash]
    · have h' : ¬('-' = c) := fun hc => h hc.symm
      simp [splitFirstDash, h, Option.map_eq_none', ih, h']

/-- C8 amended: the credential format check only requires the
presence of a dash: `splitn(2, '-')` yields two parts exactly when
the credential contains `-`, and empty parts are not rejected — for
any tenant database map, authentication reports the invalid-format
error precisely for dash-free credentials, all others proceeding to
the tenant-existence check. -/
theorem c8_amended_format_check (apiKey : String) (db : String → Option Table) :
    handle_authentication_request apiKey db = .invalidFormat
      ↔ '-' ∉ apiKey.toList := by
  unfold handle_authentication_request split_api_key
  cases hs : splitFirstDash apiKey.toList with
  | none =>
    simp only [Option.map_none', (splitFirstDash_none_iff _).1 hs]
    simp
  | some p =>
    have hdash : '-' ∈ apiKey.toList := by
      by_contra hmem
      rw [(splitFirstDash_none_iff _).2 hmem] at hs
      cases hs
    simp only [Option.map_some', hdash]
    cases db (String.mk p.1) with
    | none => simp
    | some users =>
      cases hh : (get_existing_by_id users (String.mk p.2)).head? with
      | none => simp [hh]
      | some u => simp [hh]

theorem insert_or_update_skip_reports_true (tbl : Table) (d : Record) (i : String)
    (row : Record) (n m : Int)
    (hid : getField d "id" = some (.str i))
    (hhead : (get_by_id tbl i).head? = some row)
    (hlive : getField row "deleted" = some (.int 0))
    (hm : getField row "lastEdit" = some (.int m))
    (hn : getField d "lastEdit" = some (.int n))
    (hle : n ≤ m) :
    insert_or_update tbl d = some (tbl, true) := by
  have hhead' : (tbl.filter (rowIdEq i)).head? = some row := hhead
  simp [insert_or_update, update, newLastEdit, get_by_id, hid, hhead', hlive, hm, hn,
    hle, Val.asStr, Val.asInt, isLiveVal]

/-- C2 amended: an incoming record whose `lastEdit` is at most the
stored live row's leaves the stored row untouched, but
`insert_or_update` reports `true` whenever a live row with that id
exists, so the handler still fans the stale frame out (peers receive
it verbatim and the originator receives an acknowledgement). -/
theorem c2_amended_stale_write (tbl : Table) (data row : Record) (i : String)
    (n m now : Int)
    (hhead : (get_by_id tbl i).head? = some row)
    (hlive : getField row "deleted" = some (.int 0))
    (hm : getField row "lastEdit" = some (.int m))
    (hid : getField data "id" = some (.str i))
    (hn : getField data "lastEdit" = some (.int n))
    (hdel : getField data "deleted" = some (.int 0))
    (hle : n ≤ m) :
    save_contract tbl data now = some (tbl, true) ∧
    handle_contract_update data tbl now = (tbl, true) ∧
    ∀ (f : Frame) (sender : String) (clients : List Client),
      f.data = data →
      handle_client_message "contract_update" f sender clients tbl now
        = (tbl, broadcast_message sender f clients now) := by
  have harr : ("id" : String) ≠ "arrivalAtServer" := by decide
  have harr2 : ("lastEdit" : String) ≠ "arrivalAtServer" := by decide
  have hid' : getField (stampArrival data now) "id" = some (.str i) := by
    rw [stampArrival, setCol_get_ne _ _ _ _ harr]; exact hid
  have hn' : getField (stampArrival data now) "lastEdit" = some (.int n) := by
    rw [stampArrival, setCol_get_ne _ _ _ _ harr2]; exact hn
  have hsave : save_contract tbl data now = some (tbl, true) := by
    unfold save_contract
    exact insert_or_update_skip_reports_true tbl _ i row n m hid' hhead hlive hm hn' hle
  have hnd : isDeletedData data = false := by
    simp [isDeletedData, hdel, Val.asInt]
  have hhandler : handle_contract_update data tbl now = (tbl, true) := by
    unfold handle_contract_update
    rw [if_pos (by simp [hnd])]
    rw [hsave]
  refine ⟨hsave, hhandler, ?_⟩
  intro f sender clients hf
  have h2 : handle_client_message "contract_update" f sender clients tbl now
      = ((handle_contract_update f.data tbl now).1,
         if (handle_contract_update f.data tbl now).2 then
           broadcast_message sender f clients now
         else []) := rfl
  rw [h2, hf, hhandler]
  simp

/-- C2 witness: the amended theorem applied to the concrete stale
write over the stored row with `lastEdit = 7`. -/
theorem c2_amended_stale_write_witness :
    save_contract [staleStored] staleIncoming 300 = some ([staleStored], true) :=
  (c2_amended_stale_write [staleStored] staleIncoming staleStored "c1" 5 7 300
    (by decide) (by decide) (by decide) (by decide) (by decide) (by decide)
    (by decide)).1

/-- C7 amended: a `deleted = 1` frame whose id matches no stored row
leaves the table unchanged and modifies zero rows, but the handler
maps the successful (0-row) `UPDATE` to `true`, so the frame is still
fanned out to the tenant's peers and echoed to the originator. -/
theorem c7_amended_delete_fanout (tbl : Table) (data : Record) (i : String) (now : Int)
    (habsent : get_by_id tbl i = [])
    (hid : getField data "id" = some (.str i))
    (hdel : getField data "deleted" = some (.int 1)) :
    mark_as_deleted tbl i now = (tbl, 0) ∧
    handle_contract_update data tbl now = (tbl, true) ∧
    ∀ (f : Frame) (sender : String) (clients : List Client),
      f.data = data →
      handle_client_message "contract_update" f sender clients tbl now
        = (tbl, broadcast_message sender f clients now) := by
  have hfil : tbl.filter (rowIdEq i) = [] := habsent
  have hmark : mark_as_deleted tbl i now = (tbl, 0) := by
    unfold mark_as_deleted
    rw [filter_no_match_map_id tbl (rowIdEq i) _ hfil, hfil]
    rfl
  have hisdel : isDeletedData data = true := by
    simp [isDeletedData, hdel, Val.asInt]
  have hhandler : handle_contract_update data tbl now = (tbl, true) := by
    unfold handle_contract_update
    rw [if_neg (by simp [hisdel])]
    rw [hid]
    simp [Val.asStr, hmark]
  refine ⟨hmark, hhandler, ?_⟩
  intro f sender clients hf
  have h2 : handle_client_message "contract_update" f sender clients tbl now
      = ((handle_contract_update f.data tbl now).1,
         if (handle_contract_update f.data tbl now).2 then
           broadcast_message sender f clients now
         else []) := rfl
  rw [h2, hf, hhandler]
  simp

/-- C7 witness: the amended theorem applied to the concrete
unmatched delete on an empty table. -/
theorem c7_amended_delete_fanout_witness :
    mark_as_deleted ([] : Table) "c1" 60 = ([], 0) ∧
    handle_contract_update orphanDelete [] 60 = ([], true) :=
  ⟨(c7_amended_delete_fanout [] orphanDelete "c1" 60 (by decide) (by decide)
      (by decide)).1,
   (c7_amended_delete_fanout [] orphanDelete "c1" 60 (by decide) (by decide)
      (by decide)).2.1⟩

theorem tombstone_id (now : Int) (r : Record) :
    getField (tombstone now r) "id" = getField r "id" := by
  unfold tombstone
  rw [setCol_get_ne _ _ _ _ (by decide), setCol_get_ne _ _ _ _ (by decide),
    setCol_get_ne _ _ _ _ (by decide)]

theorem tombstone_deleted (now : Int) (r : Record) :
    getField (tombstone now r) "deleted" = some (.int 1) := by
  unfold tombstone
  rw [setCol_get_ne _ _ _ _ (by decide), setCol_get_ne _ _ _ _ (by decide),
    setCol_get_self]

theorem filter_map_ite (tbl : List Record) (p : Record → Bool) (g : Record → Record)
    (hpres : ∀ r, p r = true → p (g r) = true) :
    (tbl.map (fun r => if p r then g r else r)).filter p
      = (tbl.filter p).map g := by
  induction tbl with
  | nil => rfl
  | cons r rest ih =>
    simp only [List.map_cons, List.filter_cons]
    by_cases hr : p r = true
    · rw [if_pos hr, if_pos (hpres r hr), if_pos hr, List.map_cons, ih]
    · simp only [if_neg hr, ih]

theorem mark_as_deleted_filter (tbl : Table) (i : String) (now : Int) :
    (mark_as_deleted tbl i now).1.filter (rowIdEq i)
      = (tbl.filter (rowIdEq i)).map (tombstone now) := by
  have hpres : ∀ r, rowIdEq i r = true → rowIdEq i (tombstone now r) = true := by
    intro r hr
    unfold rowIdEq at hr ⊢
    rw [tombstone_id]
    exact hr
  exact filter_map_ite tbl (rowIdEq i) (tombstone now) hpres

/-- C4: after `mark_as_deleted(id)` has tombstoned the row, any
subsequent `insert_or_update` of a record carrying that id is a
no-op: the table (tombstone included) is returned unchanged and the
operation reports `false`. -/
theorem c4_tombstone_terminal (tbl : Table) (i : String) (now : Int) (data : Record)
    (hexists : get_by_id tbl i ≠ [])
    (hid : getField data "id" = some (.str i)) :
    insert_or_update (mark_as_deleted tbl i now).1 data
      = some ((mark_as_deleted tbl i now).1, false) := by
  obtain ⟨r0, rest, hr0⟩ : ∃ r0 rest, get_by_id tbl i = r0 :: rest := by
    cases hg : get_by_id tbl i with
    | nil => exact absurd hg hexists
    | cons a l => exact ⟨a, l, rfl⟩
  have hfil : tbl.filter (rowIdEq i) = r0 :: rest := hr0
  have hhead : (get_by_id (mark_as_deleted tbl i now).1 i).head?
      = some (tombstone now r0) := by
    unfold get_by_id
    rw [mark_as_deleted_filter, hfil]
    rfl
  have hdead : isLiveVal (getField (tombstone now r0) "deleted") = false := by
    rw [tombstone_deleted]
    decide
  have hhead' : ((mark_as_deleted tbl i now).1.filter (rowIdEq i)).head?
      = some (tombstone now r0) := hhead
  simp [insert_or_update, get_by_id, hid, Val.asStr, hhead', hdead]

/-- C4 witness: the theorem applied to a table holding one live row
for id `a`, tombstoned at time 5, then saved with a newer record. -/
theorem c4_tombstone_terminal_witness :
    insert_or_update (mark_as_deleted [liveRowA] "a" 5).1 newerRecordA
      = some ((mark_as_deleted [liveRowA] "a" 5).1, false) :=
  c4_tombstone_terminal [liveRowA] "a" 5 newerRecordA (by decide) (by decide)

theorem mem_insertSorted (r a : Record) (l : List Record) :
    a ∈ insertSorted r l ↔ a = r ∨ a ∈ l := by
  induction l with
  | nil => simp [insertSorted]
  | cons x xs ih =>
    by_cases h : lastEditKey r ≤ lastEditKey x
    · simp only [insertSorted, if_pos h, List.mem_cons]
    · simp only [insertSorted, if_neg h, List.mem_cons, ih]
      tauto

theorem mem_orderByLastEdit (a : Record) (l : List Record) :
    a ∈ orderByLastEdit l ↔ a ∈ l := by
  induction l with
  | nil => simp [orderByLastEdit]
  | cons x xs ih =>
    simp only [orderByLastEdit, mem_insertSorted, List.mem_cons, ih]

theorem sorted_insertSorted (r : Record) (l : List Record)
    (h : List.Pairwise (fun a b => lastEditKey a ≤ lastEditKey b) l) :
    List.Pairwise (fun a b => lastEditKey a ≤ lastEditKey b) (insertSorted r l) := by
  induction l with
  | nil => simp [insertSorted]
  | cons x xs ih =>
    rw [List.pairwise_cons] at h
    by_cases hle : lastEditKey r ≤ lastEditKey x
    · rw [insertSorted, if_pos hle, List.pairwise_cons]
      refine ⟨?_, by rw [List.pairwise_cons]; exact h⟩
      intro b hb
      rcases List.mem_cons.1 hb with hb | hb
      · rw [hb]; exact hle
      · exact le_trans hle (h.1 b hb)
    · rw [insertSorted, if_neg hle, List.pairwise_cons]
      refine ⟨?_, ih h.2⟩
      intro b hb
      rcases (mem_insertSorted r b xs).1 hb with hb | hb
      · rw [hb]; exact le_of_lt (lt_of_not_le hle)
      · exact h.1 b hb

theorem sorted_orderByLastEdit (l : List Record) :
    List.Pairwise (fun a b => lastEditKey a ≤ lastEditKey b) (orderByLastEdit l) := by
  induction l with
  | nil => simp [orderByLastEdit]
  | cons x xs ih => exact sorted_insertSorted x (orderByLastEdit xs) ih

theorem pairwise_filterMap {α β : Type} (f : α → Option β) (R : α → α → Prop)
    (S : β → β → Prop)
    (hf : ∀ a b a' b', R a b → f a = some a' → f b = some b' → S a' b') :
    ∀ l : List α, List.Pairwise R l → List.Pairwise S (l.filterMap f) := by
  intro l hl
  induction l with
  | nil => simp
  | cons a rest ih =>
    rw [List.pairwise_cons] at hl
    rw [List.filterMap_cons]
    cases hfa : f a with
    | none => exact ih hl.2
    | some a' =>
      rw [List.pairwise_cons]
      refine ⟨?_, ih hl.2⟩
      intro b' hb'
      obtain ⟨b, hb, hfb⟩ := List.mem_filterMap.1 hb'
      exact hf a b a' b' (hl.1 b hb) hfa hfb

theorem contract_row_json_lastEdit (r r' : Record)
    (h : contract_row_json r = some r') :
    lastEditKey r' = lastEditKey r := by
  unfold contract_row_json at h
  cases h1 : (getField r "id").bind Val.asStr with
  | none => rw [h1] at h; cases h
  | some idv =>
  rw [h1] at h
  cases h2 : (getField r "done").bind Val.asInt with
  | none => rw [h2] at h; cases h
  | some done =>
  rw [h2] at h
  cases h3 : (getField r "lastEdit").bind Val.asInt with
  | none => rw [h3] at h; cases h
  | some le =>
  rw [h3] at h
  cases h4 : (getField r "title").bind Val.asStr with
  | none => rw [h4] at h; cases h
  | some t =>
  rw [h4] at h
  cases h5 : (getField r "additionalInfo").bind Val.asStr with
  | none => rw [h5] at h; cases h
  | some ai =>
  rw [h5] at h
  cases h6 : (getField r "startDate").bind Val.asInt with
  | none => rw [h6] at h; cases h
  | some sd =>
  rw [h6] at h
  cases h7 : (getField r "endDate").bind Val.asInt with
  | none => rw [h7] at h; cases h
  | some ed =>
  rw [h7] at h
  cases h8 : (getField r "availableQuantity").bind Val.asReal with
  | none => rw [h8] at h; cases h
  | some aq =>
  rw [h8] at h
  cases h9 : (getField r "bookedQuantity").bind Val.asReal with
  | none => rw [h9] at h; cases h
  | some bq =>
  rw [h9] at h
  cases h10 : (getField r "shippedQuantity").bind Val.asReal with
  | none => rw [h10] at h; cases h
  | some sq =>
  rw [h10] at h
  injection h with hh
  have hL : lastEditKey r = le := by simp [lastEditKey, h3]
  rw [← hh, hL]
  rfl

/-- C5 amended: for every watermark, the contract delta query returns
exactly the live (`deleted = 0`) rows with `arrivalAtServer` strictly
greater than the watermark, projected through the ten-column row
mapper and ordered by `lastEdit` ascending — soft-deleted rows are
excluded from contract deltas. -/
theorem c5_amended_live_delta (tbl : Table) (w : Int) :
    (∀ r', r' ∈ get_contract_updates_by_date tbl w ↔
        ∃ r, r ∈ tbl ∧ contract_delta_pred w r = true ∧
          contract_row_json r = some r') ∧
    List.Pairwise (fun a b => lastEditKey a ≤ lastEditKey b)
      (get_contract_updates_by_date tbl w) := by
  constructor
  · intro r'
    unfold get_contract_updates_by_date
    rw [List.mem_filterMap]
    constructor
    · rintro ⟨r, hr, hpr⟩
      rw [mem_orderByLastEdit, List.mem_filter] at hr
      exact ⟨r, hr.1, hr.2, hpr⟩
    · rintro ⟨r, hr, hp, hpr⟩
      refine ⟨r, ?_, hpr⟩
      rw [mem_orderByLastEdit, List.mem_filter]
      exact ⟨hr, hp⟩
  · unfold get_contract_updates_by_date
    refine pairwise_filterMap contract_row_json
      (fun a b => lastEditKey a ≤ lastEditKey b) _ ?_ _
      (sorted_orderByLastEdit _)
    intro a b a' b' hR ha hb
    rw [contract_row_json_lastEdit a a' ha, contract_row_json_lastEdit b b' hb]
    exact hR

theorem contract_replay_page_fixed :
    get_contract_updates_by_date [pendingContract] 0 = [pendingProjected] := by
  decide

theorem contract_replay_cursor_fixed :
    [pendingProjected].foldl advance_date 0 = 0 := by
  decide

theorem contract_replay_stuck (fuel : Nat) :
    send_data_loop "contract_update" (get_contract_updates_by_date [pendingContract])
      fuel 0 = none := by
  induction fuel with
  | zero => rfl
  | succ n ih =>
    rw [send_data_loop]
    have hadv : advance_date 0 pendingProjected = 0 := by decide
    simp [contract_replay_page_fixed, contract_replay_cursor_fixed, hadv, ih]

/-- C6: the spec claims every `sync_request` replays the seven kinds
in order and then emits exactly one `sync_from_server_complete`
frame.  The code violates this whenever the contract delta is
non-empty: `get_contract_updates_by_date` builds its output objects
without the `arrivalAtServer` key, `send_contract_data` therefore
never advances its cursor, the replay loop refetches the same
non-empty page forever, and no amount of loop iterations (fuel)
finishes the replay — the remaining kinds are never replayed and the
completion frame is never emitted. -/
theorem c6_sync_never_completes (fuel : Nat) :
    sync_request_response syncDb zeroWatermarks fuel = none := by
  have hnone : handle_sync_request syncDb zeroWatermarks fuel = none := by
    cases fuel with
    | zero => rfl
    | succ n =>
      have hu : send_data_loop "user_update" (spec_deltas syncDb.users) (n + 1)
          zeroWatermarks.user = some ([markerFrame "user_update" 0], 0) := rfl
      have hs : send_data_loop "sawmill_update" (spec_deltas syncDb.sawmills) (n + 1)
          zeroWatermarks.sawmill = some ([markerFrame "sawmill_update" 0], 0) := rfl
      have hc : send_data_loop "contract_update"
          (get_contract_updates_by_date syncDb.contracts) (n + 1)
          zeroWatermarks.contract = none := contract_replay_stuck (n + 1)
      unfold handle_sync_request
      rw [hu]
      rw [hs]
      rw [hc]
      rfl
  unfold sync_request_response
  rw [hnone]

end HolzLogistik
